import Mathlib

/-!
Verification development for the ai-contacts-importer repository.

The definitions below are a shallow embedding of the mapping-and-import
pipeline of the repository: the Mapping Engine (getMappingSuggestions in
lib/gemini.ts), the Mapping Reconciler (handleUpdateMapping and
handleCreateNewField in components/ImportContactsPopup.tsx and
components/ContactsPage.tsx), and the Import Executor (handleImport,
mapRowToContact and findExistingContact in the same two components).

JavaScript objects and Maps are embedded as association lists over String
keys; Firestore is embedded as a functional Store value holding the
contacts and contactFields collections together with a fresh-id counter;
asynchronous store operations that may throw are embedded with explicit
success flags on each row environment.
-/

namespace ContactsImporter

/-! ## String primitives

The JS string primitives used by the source (trim, startsWith,
substring) are embedded as structurally recursive functions over the
character list of a String, so that every definition evaluates inside
the kernel on concrete inputs. -/

/-- Prefix test on character lists. -/
def strStartsWithAux : List Char → List Char → Bool
  | _, [] => true
  | [], _ :: _ => false
  | c :: cs, d :: ds => c == d && strStartsWithAux cs ds

/-- JS String.prototype.startsWith. -/
def strStartsWith (s p : String) : Bool := strStartsWithAux s.data p.data

/-- JS String.prototype.substring(n): drop the first n characters. -/
def strDrop (s : String) (n : Nat) : String := String.mk (s.data.drop n)

/-- JS String.prototype.trim: strip leading and trailing whitespace. -/
def strTrim (s : String) : String :=
  String.mk
    (((s.data.dropWhile Char.isWhitespace).reverse.dropWhile Char.isWhitespace).reverse)

/-! ## Association lists: JS objects and Maps -/

/-- Lookup in an association list; models reading a property of a JS
object (or Map.get), returning the value of the first matching key. -/
def alistLookup {α : Type} : List (String × α) → String → Option α
  | [], _ => none
  | (k, v) :: rest, key => if k == key then some v else alistLookup rest key

/-- Update-or-append in an association list; models assigning a property
of a JS object (or Map.set): an existing key is overwritten in place,
a new key is appended at the end. -/
def alistSet {α : Type} : List (String × α) → String → α → List (String × α)
  | [], key, v => [(key, v)]
  | (k, w) :: rest, key, v =>
      if k == key then (key, v) :: rest else (k, w) :: alistSet rest key v

/-! ## Data model (types/import.ts, types/contact.ts) -/

/-- FieldMapping from types/import.ts: one mapping entry for a header.
The confidence is an Option because the reconciler can create an entry
by spreading an undefined object, leaving confidence absent. -/
structure FieldMapping where
  mappedTo : String
  confidence : Option ℚ
deriving DecidableEq, Repr

/-- MappingResult from types/import.ts. -/
structure MappingResult where
  mapping : List (String × FieldMapping)
  unmappedHeaders : List String
  notes : String
deriving DecidableEq, Repr

/-- ImportStats from types/import.ts. -/
structure ImportStats where
  total : Nat
  created : Nat
  merged : Nat
  errors : Nat
deriving DecidableEq, Repr

/-- A document of the contactFields Firestore collection
(ContactField from types/contact.ts, plus the document id). -/
structure ContactFieldDoc where
  id : String
  label : String
  type : String
  core : Bool
deriving DecidableEq, Repr

/-- A document of the contacts Firestore collection: an opaque id plus a
free-form attribute map. Cell values are treated as text. -/
structure Contact where
  id : String
  attrs : List (String × String)
deriving DecidableEq, Repr

/-- The Firestore state visible to the import pipeline: the contacts and
contactFields collections, plus a counter for fresh document ids. -/
structure Store where
  contacts : List Contact
  contactFields : List ContactFieldDoc
  nextId : Nat
deriving DecidableEq, Repr

/-- Fresh document id generated by addDoc. -/
def freshId (st : Store) : String := "id" ++ toString st.nextId

/-! ## Mapping Engine (lib/gemini.ts, getMappingSuggestions) -/

/-- One entry of the parsed classifier response: the raw
(mappedTo, confidence) pair for a header, as produced by JSON.parse on
an object-shaped response. -/
structure RawEntry where
  mappedTo : String
  confidence : ℚ
deriving DecidableEq, Repr

/-- A parsed, object-shaped classifier response, as produced by
JSON.parse: a mapping object, the unmappedHeaders array and the notes
string, with no constraint relating the mapping to the input headers. -/
structure RawResponse where
  mapping : List (String × RawEntry)
  unmappedHeaders : List String
  notes : String
deriving DecidableEq, Repr

/-- getMappingSuggestions from lib/gemini.ts, after the Gemini call: the
argument parsed is the result of JSON.parse on the extracted response
text (none when JSON.parse threw). On a parse failure the caught error
is rethrown wrapped; on success the parsed document is returned as-is,
with no validation of its shape against the input headers. -/
def getMappingSuggestions (headers : List String) (parsed : Option RawResponse) :
    Except String RawResponse :=
  match parsed with
  | none => Except.error "Failed to get AI mapping suggestions"
  | some r => Except.ok r

/-- The five fixed core attribute names. -/
def coreNames : List String := ["firstName", "lastName", "phone", "email", "agentUid"]

/-- Modelled from the spec (section 4.1 response contract), for stating
claim C1: a mappedTo string parses into a valid TargetRef variant when
it is a core attribute name, an existing field id, a NEW-prefixed label,
or the literal unmapped. -/
def parsesToTarget (knownIds : List String) (s : String) : Bool :=
  coreNames.contains s || knownIds.contains s || strStartsWith s "NEW:" || s == "unmapped"

/-- Modelled from the spec (section 4.1 response contract), for stating
claim C1: every input header appears exactly once in the response
mapping, every confidence lies in [0,1], and every mappedTo parses into
a valid TargetRef variant. -/
def respectsContract (headers knownIds : List String) (r : RawResponse) : Bool :=
  headers.all (fun h => (r.mapping.filter (fun p => p.1 == h)).length == 1)
    && r.mapping.all (fun p =>
        decide (0 ≤ p.2.confidence) && decide (p.2.confidence ≤ 1)
          && parsesToTarget knownIds p.2.mappedTo)

/-! ## Mapping Reconciler
(ImportContactsPopup.tsx handleUpdateMapping / handleCreateNewField,
ContactsPage.tsx handleUpdateMapping) -/

/-- Object.keys of a mapping object. -/
def objKeys (m : List (String × FieldMapping)) : List String := m.map Prod.fst

/-- Recomputation of unmappedHeaders performed by both reconciler
handlers: Object.keys(updatedMapping).filter(h with mappedTo equal to
the literal unmapped). -/
def recomputeUnmapped (m : List (String × FieldMapping)) : List String :=
  (objKeys m).filter (fun h =>
    match alistLookup m h with
    | some fm => fm.mappedTo == "unmapped"
    | none => false)

/-- The shared body of the reconciler edits: spread the existing entry
for the header (an absent entry spreads to an empty object), overwrite
mappedTo, store the entry back, and recompute unmappedHeaders. -/
def applyMappingEdit (r : MappingResult) (header newMappedTo : String) : MappingResult :=
  let old := alistLookup r.mapping header
  let entry : FieldMapping :=
    { mappedTo := newMappedTo, confidence := old.bind FieldMapping.confidence }
  let m := alistSet r.mapping header entry
  { r with mapping := m, unmappedHeaders := recomputeUnmapped m }

/-- handleUpdateMapping from ImportContactsPopup.tsx: the sentinel
value __CREATE_NEW__ only opens the new-field input and performs no
edit; any other value is written through applyMappingEdit. -/
def handleUpdateMapping (r : MappingResult) (header newMappedTo : String) : MappingResult :=
  if newMappedTo == "__CREATE_NEW__" then r
  else applyMappingEdit r header newMappedTo

/-- handleCreateNewField from ImportContactsPopup.tsx: a blank name (after
trimming) performs no edit; otherwise the header's target becomes NEW:
followed by the trimmed name. -/
def handleCreateNewField (r : MappingResult) (header newFieldName : String) : MappingResult :=
  if strTrim newFieldName == "" then r
  else applyMappingEdit r header ("NEW:" ++ strTrim newFieldName)

/-- handleUpdateMapping from ContactsPage.tsx: same edit without the
__CREATE_NEW__ sentinel. -/
def handleUpdateMappingContactsPage (r : MappingResult) (header newMappedTo : String) :
    MappingResult :=
  applyMappingEdit r header newMappedTo

/-! ## Import Executor, phase 1: field materialization
(ImportContactsPopup.tsx handleImport, step 1) -/

/-- The loop of handleImport step 1 over the mapping entries: for every
entry whose mappedTo starts with NEW:, addDoc a contactFields document
with the label taken from the rest of the string, type text, core
false, and record the new id in newFieldsMap keyed by the full NEW:
string (a later duplicate key overwrites the earlier id). -/
def materializeFields :
    List (String × FieldMapping) → Store → List (String × String) →
    Store × List (String × String)
  | [], st, nfm => (st, nfm)
  | (_, fm) :: rest, st, nfm =>
      if strStartsWith fm.mappedTo "NEW:" then
        let fieldName := strDrop fm.mappedTo 4
        let newId := freshId st
        let st' : Store :=
          { st with
            contactFields := st.contactFields ++ [⟨newId, fieldName, "text", false⟩],
            nextId := st.nextId + 1 }
        materializeFields rest st' (alistSet nfm fm.mappedTo newId)
      else
        materializeFields rest st nfm

/-- Rewriting of a single mapping entry with the actual field ids:
entries whose mappedTo starts with NEW: are replaced by the id found in
newFieldsMap when present. -/
def rewriteEntry (nfm : List (String × String)) (fm : FieldMapping) : FieldMapping :=
  if strStartsWith fm.mappedTo "NEW:" then
    match alistLookup nfm fm.mappedTo with
    | some actualFieldId => { fm with mappedTo := actualFieldId }
    | none => fm
  else fm

/-- The update loop of handleImport that replaces every NEW: target
with the actual field id recorded in newFieldsMap. -/
def applyNewFieldIds (mapping : List (String × FieldMapping))
    (nfm : List (String × String)) : List (String × FieldMapping) :=
  mapping.map (fun p => (p.1, rewriteEntry nfm p.2))

/-! ## Import Executor, phase 2: row transformation
(ImportContactsPopup.tsx mapRowToContact, ContactsPage.tsx
mapRowToContact) -/

/-- One iteration of the loop of mapRowToContact from
ImportContactsPopup.tsx, processing a single (header, value) cell:
skip cells of unknown or unmapped headers, skip blank and placeholder
values after trimming, resolve agentUid through the usersByEmail map
(silently dropping the attribute on a miss), and otherwise assign the
original cell value under the mapped key. -/
def mapRowStep (mapping : MappingResult) (usersByEmail : List (String × String))
    (contact : List (String × String)) (cell : String × String) :
    List (String × String) :=
  match alistLookup mapping.mapping cell.1 with
  | none => contact
  | some fieldMapping =>
      if fieldMapping.mappedTo == "unmapped" then contact
      else
        let stringValue := strTrim cell.2
        if stringValue == "" || stringValue == "-" || stringValue == "null"
            || stringValue == "undefined" then contact
        else if fieldMapping.mappedTo == "agentUid" then
          match alistLookup usersByEmail stringValue with
          | some agentId => alistSet contact "agentUid" agentId
          | none => contact
        else alistSet contact fieldMapping.mappedTo cell.2

/-- mapRowToContact from ImportContactsPopup.tsx: fold mapRowStep over
the cells of the row, starting from an empty contact object. -/
def mapRowToContact (row : List (String × String)) (mapping : MappingResult)
    (usersByEmail : List (String × String)) : List (String × String) :=
  row.foldl (mapRowStep mapping usersByEmail) []

/-- One iteration of the loop of mapRowToContact from ContactsPage.tsx:
this older variant skips only unknown headers, unmapped targets and
falsy (empty) values, performing no trimming and no placeholder check. -/
def mapRowStepContactsPage (mapping : MappingResult)
    (usersByEmail : List (String × String))
    (contact : List (String × String)) (cell : String × String) :
    List (String × String) :=
  match alistLookup mapping.mapping cell.1 with
  | none => contact
  | some fieldMapping =>
      if fieldMapping.mappedTo == "unmapped" || cell.2 == "" then contact
      else if fieldMapping.mappedTo == "agentUid" then
        match alistLookup usersByEmail cell.2 with
        | some agentId => alistSet contact "agentUid" agentId
        | none => contact
      else alistSet contact fieldMapping.mappedTo cell.2

/-- mapRowToContact from ContactsPage.tsx. -/
def mapRowToContactContactsPage (row : List (String × String))
    (mapping : MappingResult) (usersByEmail : List (String × String)) :
    List (String × String) :=
  row.foldl (mapRowStepContactsPage mapping usersByEmail) []

/-! ## Import Executor, phases 3 to 5: validation, deduplication, write
(ImportContactsPopup.tsx handleImport / findExistingContact) -/

/-- Truthiness-plus-trim check used by the core-field validation of
ImportContactsPopup.tsx handleImport: the field is present when the
attribute exists and its trimmed string value is nonempty. -/
def fieldPresent (contact : List (String × String)) (key : String) : Bool :=
  match alistLookup contact key with
  | none => false
  | some v => !(strTrim v == "")

/-- The core-field validation of ImportContactsPopup.tsx handleImport:
all four of firstName, lastName, email, phone must be present. -/
def validateCore (contact : List (String × String)) : Bool :=
  fieldPresent contact "firstName" && fieldPresent contact "lastName"
    && fieldPresent contact "email" && fieldPresent contact "phone"

/-- A Firestore equality query on one attribute followed by taking the
first returned document: the first contact in the collection whose
attribute equals the value. -/
def firstMatch (contacts : List Contact) (key value : String) : Option Contact :=
  contacts.find? (fun c => alistLookup c.attrs key == some value)

/-- findExistingContact from ImportContactsPopup.tsx (identical in
ContactsPage.tsx): when the store reads succeed (readOk), query by
email first when the email attribute is truthy, then by phone when the
phone attribute is truthy, returning the first match; when a store read
throws (readOk false), the catch block returns null. -/
def findExistingContact (readOk : Bool) (st : Store)
    (contact : List (String × String)) : Option Contact :=
  if readOk then
    let email := (alistLookup contact "email").getD ""
    let phone := (alistLookup contact "phone").getD ""
    match (if email == "" then none else firstMatch st.contacts "email" email) with
    | some c => some c
    | none => if phone == "" then none else firstMatch st.contacts "phone" phone
  else none

/-- Shallow merge of a new attribute map onto an existing document, as
performed by Firestore updateDoc: every key of the new map is written
over the document, all other keys are untouched. -/
def mergeAttrs (old newAttrs : List (String × String)) : List (String × String) :=
  newAttrs.foldl (fun m p => alistSet m p.1 p.2) old

/-- updateDoc on the contacts collection: merge the attribute map onto
the document with the given id. -/
def updateDocStore (st : Store) (cid : String) (attrs : List (String × String)) : Store :=
  { st with
    contacts := st.contacts.map (fun c =>
      if c.id == cid then { c with attrs := mergeAttrs c.attrs attrs } else c) }

/-- addDoc on the contacts collection: append a new document under a
fresh id. -/
def addContact (st : Store) (attrs : List (String × String)) : Store :=
  { st with
    contacts := st.contacts ++ [⟨freshId st, attrs⟩],
    nextId := st.nextId + 1 }

/-- One row of the import together with the fate of its asynchronous
store operations: readOk is false when the deduplication read throws
(caught inside findExistingContact), writeOk is false when the
create-or-merge write throws (caught by the per-row try block). -/
structure RowEnv where
  row : List (String × String)
  readOk : Bool
  writeOk : Bool
deriving DecidableEq, Repr

/-- The per-row body of the import loop of ImportContactsPopup.tsx
handleImport: transform the row, reject it (errors plus one) when a
required core field is missing, deduplicate, then merge (merged plus
one) or create (created plus one); a throwing write is caught by the
per-row try block and counted under errors, leaving the store
unchanged. -/
def processRow (mapping : MappingResult) (usersByEmail : List (String × String))
    (acc : Store × ImportStats) (re : RowEnv) : Store × ImportStats :=
  let st := acc.1
  let stats := acc.2
  let mappedContact := mapRowToContact re.row mapping usersByEmail
  if !(validateCore mappedContact) then
    (st, { stats with errors := stats.errors + 1 })
  else
    match findExistingContact re.readOk st mappedContact with
    | some existing =>
        if re.writeOk then
          (updateDocStore st existing.id mappedContact,
            { stats with merged := stats.merged + 1 })
        else (st, { stats with errors := stats.errors + 1 })
    | none =>
        if re.writeOk then
          (addContact st mappedContact, { stats with created := stats.created + 1 })
        else (st, { stats with errors := stats.errors + 1 })

/-- Fuel-indexed splitting of the row list into consecutive chunks of
size batchSize, mirroring the indexed slice loop of handleImport; the
fuel argument is instantiated with the list length, which the loop
never exhausts. -/
def chunksOfAux {α : Type} (batchSize : Nat) : Nat → List α → List (List α)
  | _, [] => []
  | 0, l => [l]
  | fuel + 1, x :: xs =>
      if batchSize = 0 then [x :: xs]
      else (x :: xs).take batchSize :: chunksOfAux batchSize fuel ((x :: xs).drop batchSize)

/-- The chunks visited by the slice loop of handleImport. -/
def chunksOf {α : Type} (batchSize : Nat) (l : List α) : List (List α) :=
  chunksOfAux batchSize l.length l

/-- The doubly nested loop of handleImport: an outer loop over chunks,
an inner loop over the rows of each chunk. -/
def runChunks (mapping : MappingResult) (usersByEmail : List (String × String))
    (chunks : List (List RowEnv)) (acc : Store × ImportStats) : Store × ImportStats :=
  chunks.foldl (fun a batch => batch.foldl (processRow mapping usersByEmail) a) acc

/-- handleImport from ImportContactsPopup.tsx: materialize the NEW:
fields, rewrite the mapping with the actual field ids, then process
the rows in chunks of 100, starting from stats initialized with total
equal to the number of rows. -/
def handleImport (mapping : MappingResult) (st : Store)
    (usersByEmail : List (String × String)) (rows : List RowEnv) :
    Store × ImportStats :=
  let stats0 : ImportStats := { total := rows.length, created := 0, merged := 0, errors := 0 }
  let matRes := materializeFields mapping.mapping st []
  let finalMapping : MappingResult :=
    { mapping with mapping := applyNewFieldIds mapping.mapping matRes.2 }
  runChunks finalMapping usersByEmail (chunksOf 100 rows) (matRes.1, stats0)

/-- handleImport with the chunking removed: the same run as a single
sequential loop over all rows. -/
def handleImportSeq (mapping : MappingResult) (st : Store)
    (usersByEmail : List (String × String)) (rows : List RowEnv) :
    Store × ImportStats :=
  let stats0 : ImportStats := { total := rows.length, created := 0, merged := 0, errors := 0 }
  let matRes := materializeFields mapping.mapping st []
  let finalMapping : MappingResult :=
    { mapping with mapping := applyNewFieldIds mapping.mapping matRes.2 }
  rows.foldl (processRow finalMapping usersByEmail) (matRes.1, stats0)

/-! ## Helper lemmas on association lists -/

lemma alistLookup_alistSet {α : Type} (m : List (String × α)) (k k' : String) (v : α) :
    alistLookup (alistSet m k v) k' = if k' = k then some v else alistLookup m k' := by
  induction m with
  | nil =>
      by_cases h : k' = k
      · subst h; simp [alistSet, alistLookup]
      · have h2 : ¬ k = k' := fun hh => h hh.symm
        simp [alistSet, alistLookup, h, h2]
  | cons p rest ih =>
      obtain ⟨k0, w⟩ := p
      by_cases h0 : k0 = k
      · subst h0
        by_cases h1 : k' = k0
        · subst h1; simp [alistSet, alistLookup]
        · have h2 : ¬ k0 = k' := fun hh => h1 hh.symm
          simp [alistSet, alistLookup, h1, h2]
      · by_cases h1 : k0 = k'
        · subst h1
          have h2 : ¬ k0 = k := h0
          have h3 : ¬ k = k0 := fun hh => h2 hh.symm
          simp [alistSet, alistLookup, h2, h3]
        · simp [alistSet, alistLookup, h0, h1, ih]

lemma alistLookup_eq_none_of_not_mem {α : Type} (m : List (String × α)) (k : String)
    (h : k ∉ m.map Prod.fst) : alistLookup m k = none := by
  induction m with
  | nil => simp [alistLookup]
  | cons p rest ih =>
      obtain ⟨k0, w⟩ := p
      simp only [List.map_cons, List.mem_cons] at h
      push_neg at h
      simp [alistLookup, Ne.symm h.1, ih h.2]

lemma mem_keys_of_alistLookup {α : Type} (m : List (String × α)) (k : String) (v : α)
    (h : alistLookup m k = some v) : k ∈ m.map Prod.fst := by
  induction m with
  | nil => simp [alistLookup] at h
  | cons p rest ih =>
      obtain ⟨k0, w⟩ := p
      by_cases h0 : k0 = k
      · simp [h0]
      · simp [alistLookup, h0] at h
        simp [ih h]

lemma keys_alistSet {α : Type} (m : List (String × α)) (k : String) (v : α) :
    (alistSet m k v).map Prod.fst =
      if k ∈ m.map Prod.fst then m.map Prod.fst else m.map Prod.fst ++ [k] := by
  induction m with
  | nil => simp [alistSet]
  | cons p rest ih =>
      obtain ⟨k0, w⟩ := p
      by_cases h0 : k0 = k
      · simp [alistSet, h0]
      · by_cases h1 : k ∈ rest.map Prod.fst <;>
          simp [alistSet, h0, Ne.symm h0, h1, ih]

lemma nodup_keys_alistSet {α : Type} (m : List (String × α)) (k : String) (v : α)
    (h : (m.map Prod.fst).Nodup) : ((alistSet m k v).map Prod.fst).Nodup := by
  rw [keys_alistSet]
  by_cases hk : k ∈ m.map Prod.fst
  · simpa [hk]
  · simp only [hk, if_false]
    rw [← List.concat_eq_append]
    exact List.Nodup.concat hk h

lemma alistLookup_mergeAttrs (old newAttrs : List (String × String)) (k : String)
    (h : (newAttrs.map Prod.fst).Nodup) :
    alistLookup (mergeAttrs old newAttrs) k =
      (alistLookup newAttrs k).or (alistLookup old k) := by
  induction newAttrs generalizing old with
  | nil => simp [mergeAttrs, alistLookup]
  | cons p rest ih =>
      obtain ⟨k0, v0⟩ := p
      simp only [List.map_cons, List.nodup_cons] at h
      have step : mergeAttrs old ((k0, v0) :: rest) = mergeAttrs (alistSet old k0 v0) rest := rfl
      rw [step, ih _ h.2, alistLookup_alistSet]
      by_cases hk : k = k0
      · subst hk
        have : alistLookup rest k = none :=
          alistLookup_eq_none_of_not_mem rest k h.1
        simp [alistLookup, this]
      · simp [alistLookup, Ne.symm hk, hk]

/-! ## Helper lemmas on the reconciler -/

lemma mem_recomputeUnmapped (m : List (String × FieldMapping)) (h : String) :
    h ∈ recomputeUnmapped m ↔
      ∃ fm, alistLookup m h = some fm ∧ fm.mappedTo = "unmapped" := by
  constructor
  · intro hmem
    rw [recomputeUnmapped, List.mem_filter] at hmem
    obtain ⟨-, hp⟩ := hmem
    cases hl : alistLookup m h with
    | none => rw [hl] at hp; simp at hp
    | some fm =>
        rw [hl] at hp
        simp only [beq_iff_eq] at hp
        exact ⟨fm, rfl, hp⟩
  · rintro ⟨fm, hl, hu⟩
    rw [recomputeUnmapped, List.mem_filter]
    refine ⟨mem_keys_of_alistLookup m h fm hl, ?_⟩
    rw [hl]
    simp [hu]

lemma unmapped_invariant_applyMappingEdit (r : MappingResult) (header t : String)
    (h : String) :
    h ∈ (applyMappingEdit r header t).unmappedHeaders ↔
      ∃ fm, alistLookup (applyMappingEdit r header t).mapping h = some fm ∧
        fm.mappedTo = "unmapped" := by
  exact mem_recomputeUnmapped _ h

lemma alistSet_eq_append_of_lookup_none {α : Type} (m : List (String × α)) (k : String)
    (v : α) (h : alistLookup m k = none) : alistSet m k v = m ++ [(k, v)] := by
  induction m with
  | nil => simp [alistSet]
  | cons p rest ih =>
      obtain ⟨k0, w⟩ := p
      by_cases h0 : k0 = k
      · simp [alistLookup, h0] at h
      · simp only [alistLookup, beq_iff_eq, h0, if_false] at h
        simp [alistSet, h0, ih h]

/-! ## Helper lemmas on chunking -/

lemma foldl_chunksOfAux {α β : Type} (n : Nat) (f : β → α → β) :
    ∀ (fuel : Nat) (l : List α) (acc : β), l.length ≤ fuel →
      (chunksOfAux n fuel l).foldl (fun a b => b.foldl f a) acc = l.foldl f acc := by
  intro fuel
  induction fuel with
  | zero =>
      intro l acc hl
      have : l = [] := List.length_eq_zero.mp (Nat.le_zero.mp hl)
      subst this
      simp [chunksOfAux]
  | succ fuel ih =>
      intro l acc hl
      cases l with
      | nil => simp [chunksOfAux]
      | cons x xs =>
          by_cases hn : n = 0
          · simp [chunksOfAux, hn]
          · have hlen : ((x :: xs).drop n).length ≤ fuel := by
              rw [List.length_drop]
              simp only [List.length_cons] at hl ⊢
              omega
            simp only [chunksOfAux, hn, if_false, List.foldl_cons]
            rw [ih _ _ hlen, ← List.foldl_append, List.take_append_drop]
            rfl

lemma runChunks_eq_foldl (mapping : MappingResult) (usersByEmail : List (String × String))
    (n : Nat) (rows : List RowEnv) (acc : Store × ImportStats) :
    runChunks mapping usersByEmail (chunksOf n rows) acc
      = rows.foldl (processRow mapping usersByEmail) acc := by
  exact foldl_chunksOfAux n _ rows.length rows acc (le_refl _)

/-! ## Helper lemmas on the per-row accounting -/

lemma processRow_counters (mapping : MappingResult) (usersByEmail : List (String × String))
    (acc : Store × ImportStats) (re : RowEnv) :
    ((processRow mapping usersByEmail acc re).2.created
        + (processRow mapping usersByEmail acc re).2.merged
        + (processRow mapping usersByEmail acc re).2.errors
      = acc.2.created + acc.2.merged + acc.2.errors + 1)
    ∧ (processRow mapping usersByEmail acc re).2.total = acc.2.total := by
  obtain ⟨st, stats⟩ := acc
  cases hv : validateCore (mapRowToContact re.row mapping usersByEmail) <;>
    cases hw : re.writeOk <;>
      cases hf : findExistingContact re.readOk st
          (mapRowToContact re.row mapping usersByEmail) <;>
        simp [processRow, hv, hw, hf] <;> omega

lemma foldl_processRow_counters (mapping : MappingResult)
    (usersByEmail : List (String × String)) (rows : List RowEnv)
    (acc : Store × ImportStats) :
    ((rows.foldl (processRow mapping usersByEmail) acc).2.created
        + (rows.foldl (processRow mapping usersByEmail) acc).2.merged
        + (rows.foldl (processRow mapping usersByEmail) acc).2.errors
      = acc.2.created + acc.2.merged + acc.2.errors + rows.length)
    ∧ (rows.foldl (processRow mapping usersByEmail) acc).2.total = acc.2.total := by
  induction rows generalizing acc with
  | nil => simp
  | cons r rest ih =>
      simp only [List.foldl_cons, List.length_cons]
      have h1 := processRow_counters mapping usersByEmail acc r
      have h2 := ih (processRow mapping usersByEmail acc r)
      exact ⟨by omega, by omega⟩

/-! ## Helper lemmas on row transformation -/

lemma nodup_keys_mapRowStep (mapping : MappingResult)
    (usersByEmail : List (String × String)) (contact : List (String × String))
    (cell : String × String) (h : (contact.map Prod.fst).Nodup) :
    (((mapRowStep mapping usersByEmail contact cell)).map Prod.fst).Nodup := by
  unfold mapRowStep
  split
  · exact h
  · split
    · exact h
    · split
      · dsimp only
        split
        · exact h
        · split
          · exact nodup_keys_alistSet _ _ _ h
          · exact h
      · dsimp only
        split
        · exact h
        · exact nodup_keys_alistSet _ _ _ h

lemma nodup_keys_mapRowToContact (row : List (String × String))
    (mapping : MappingResult) (usersByEmail : List (String × String)) :
    ((mapRowToContact row mapping usersByEmail).map Prod.fst).Nodup := by
  have aux : ∀ (contact : List (String × String)), (contact.map Prod.fst).Nodup →
      ((row.foldl (mapRowStep mapping usersByEmail) contact).map Prod.fst).Nodup := by
    induction row with
    | nil => intro contact h; exact h
    | cons cell rest ih =>
        intro contact h
        exact ih _ (nodup_keys_mapRowStep mapping usersByEmail contact cell h)
  exact aux [] (by simp)

/-! ## Helper lemmas on field materialization -/

lemma materializeFields_length (mapping : List (String × FieldMapping)) (st : Store)
    (nfm : List (String × String)) :
    (materializeFields mapping st nfm).1.contactFields.length
      = st.contactFields.length
        + (mapping.filter (fun p => strStartsWith p.2.mappedTo "NEW:")).length := by
  induction mapping generalizing st nfm with
  | nil => simp [materializeFields]
  | cons p rest ih =>
      obtain ⟨h0, fm⟩ := p
      by_cases hn : strStartsWith fm.mappedTo "NEW:"
      · simp only [materializeFields, hn, if_true, List.filter_cons]
        rw [ih]
        simp [hn]
        omega
      · simp only [materializeFields, List.filter_cons]
        rw [if_neg (by simpa using hn)]
        rw [ih]
        simp [hn]

lemma materializeFields_lookup_mono (mapping : List (String × FieldMapping)) (st : Store)
    (nfm : List (String × String)) (key : String)
    (h : (alistLookup nfm key).isSome) :
    (alistLookup (materializeFields mapping st nfm).2 key).isSome := by
  induction mapping generalizing st nfm with
  | nil => simpa [materializeFields]
  | cons p rest ih =>
      obtain ⟨h0, fm⟩ := p
      by_cases hn : strStartsWith fm.mappedTo "NEW:"
      · simp only [materializeFields, hn, if_true]
        apply ih
        rw [alistLookup_alistSet]
        by_cases hk : key = fm.mappedTo
        · simp [hk]
        · simpa [hk]
      · simp only [materializeFields]
        rw [if_neg (by simpa using hn)]
        exact ih _ _ h

lemma materializeFields_covers (mapping : List (String × FieldMapping)) (st : Store)
    (nfm : List (String × String)) (h : String) (fm : FieldMapping)
    (hmem : (h, fm) ∈ mapping) (hnew : strStartsWith fm.mappedTo "NEW:" = true) :
    (alistLookup (materializeFields mapping st nfm).2 fm.mappedTo).isSome := by
  induction mapping generalizing st nfm with
  | nil => cases hmem
  | cons p rest ih =>
      rcases List.mem_cons.mp hmem with heq | htail
      · subst heq
        simp only [materializeFields, hnew, if_true]
        apply materializeFields_lookup_mono
        rw [alistLookup_alistSet]
        simp
      · obtain ⟨h0, fm0⟩ := p
        by_cases hn : strStartsWith fm0.mappedTo "NEW:"
        · simp only [materializeFields, hn, if_true]
          exact ih _ _ htail
        · simp only [materializeFields]
          rw [if_neg (by simpa using hn)]
          exact ih _ _ htail

/-! ## Claim C1 -/

/-- C1 counterexample: a parsed classifier response that violates the
response contract (its single entry carries confidence 2, outside
[0,1]) is returned by getMappingSuggestions as a success, not rejected
with MalformedResponse. -/
theorem c1_counterexample :
    getMappingSuggestions ["a"] (some ⟨[("a", ⟨"unmapped", 2⟩)], [], ""⟩)
      = Except.ok ⟨[("a", ⟨"unmapped", 2⟩)], [], ""⟩
    ∧ respectsContract ["a"] [] ⟨[("a", ⟨"unmapped", 2⟩)], [], ""⟩ = false := by
  exact ⟨rfl, by decide⟩

/-- C1 (amended): the Mapping Engine raises an error only when the
classifier response fails to parse as JSON; any successfully parsed
response is returned unchanged, with no validation of header coverage,
confidence range or target shape. -/
theorem c1_engine_returns_parsed_unvalidated (headers : List String) (r : RawResponse) :
    getMappingSuggestions headers (some r) = Except.ok r
    ∧ getMappingSuggestions headers none
        = Except.error "Failed to get AI mapping suggestions" :=
  ⟨rfl, rfl⟩

/-! ## Claim C2 -/

/-- C2 counterexample: a run over one row whose transformation yields
zero usable attributes (its only header is unmapped) increments errors,
so the row is not silently skipped, and the counters sum to total
rather than falling strictly below it. -/
theorem c2_counterexample :
    (handleImport ⟨[("h", ⟨"unmapped", some 1⟩)], ["h"], ""⟩ ⟨[], [], 0⟩ []
        [⟨[("h", "x")], true, true⟩]).2
      = ⟨1, 0, 0, 1⟩ := by
  decide

/-- C2 (amended): a row whose transformation yields zero usable
attributes fails the core-field validation and is counted under errors;
every processed row increments exactly one counter, so the final
statistics always satisfy created plus merged plus errors equal to
total. -/
theorem c2_stats_sum_eq_total (mapping : MappingResult) (st : Store)
    (usersByEmail : List (String × String)) (rows : List RowEnv) :
    (handleImport mapping st usersByEmail rows).2.created
      + (handleImport mapping st usersByEmail rows).2.merged
      + (handleImport mapping st usersByEmail rows).2.errors
      = (handleImport mapping st usersByEmail rows).2.total := by
  simp only [handleImport, runChunks_eq_foldl]
  obtain ⟨h1, h2⟩ := foldl_processRow_counters
    (MappingResult.mk
      (applyNewFieldIds mapping.mapping (materializeFields mapping.mapping st []).2)
      mapping.unmappedHeaders mapping.notes)
    usersByEmail rows
    ((materializeFields mapping.mapping st []).1, ImportStats.mk rows.length 0 0 0)
  dsimp only at h1 h2
  omega

/-! ## Claim C3 -/

/-- C3 counterexample: two different headers both proposing the label X
cause field materialization to create two contactFields documents, not
one; both headers are then rewritten to the id of the second document
(the first document is left orphaned). -/
theorem c3_counterexample :
    (materializeFields [("h1", ⟨"NEW:X", some 1⟩), ("h2", ⟨"NEW:X", some 1⟩)]
        ⟨[], [], 0⟩ []).1.contactFields
      = [⟨"id0", "X", "text", false⟩, ⟨"id1", "X", "text", false⟩]
    ∧ applyNewFieldIds [("h1", ⟨"NEW:X", some 1⟩), ("h2", ⟨"NEW:X", some 1⟩)]
        (materializeFields [("h1", ⟨"NEW:X", some 1⟩), ("h2", ⟨"NEW:X", some 1⟩)]
          ⟨[], [], 0⟩ []).2
      = [("h1", ⟨"id1", some 1⟩), ("h2", ⟨"id1", some 1⟩)] := by
  decide

/-- C3 (amended): field materialization creates one contactFields
document per occurrence of a NEW target in the mapping, not per
distinct label; every NEW target receives an id in newFieldsMap, and
any two headers carrying the identical NEW target are rewritten to the
same field id. -/
theorem c3_materialization (mapping : List (String × FieldMapping)) (st : Store) :
    ((materializeFields mapping st []).1.contactFields.length
      = st.contactFields.length
        + (mapping.filter (fun p => strStartsWith p.2.mappedTo "NEW:")).length)
    ∧ (∀ h fm, (h, fm) ∈ mapping → strStartsWith fm.mappedTo "NEW:" = true →
        (alistLookup (materializeFields mapping st []).2 fm.mappedTo).isSome = true)
    ∧ (∀ h1 h2 fm1 fm2, (h1, fm1) ∈ mapping → (h2, fm2) ∈ mapping →
        fm1.mappedTo = fm2.mappedTo →
        (rewriteEntry (materializeFields mapping st []).2 fm1).mappedTo
          = (rewriteEntry (materializeFields mapping st []).2 fm2).mappedTo) := by
  refine ⟨materializeFields_length mapping st [], ?_, ?_⟩
  · intro h fm hmem hnew
    exact materializeFields_covers mapping st [] h fm hmem hnew
  · intro h1 h2 fm1 fm2 hmem1 hmem2 heq
    unfold rewriteEntry
    rw [heq]
    cases alistLookup (materializeFields mapping st []).2 fm2.mappedTo <;>
      by_cases hsw : strStartsWith fm2.mappedTo "NEW:" <;> simp [hsw] <;> exact heq

/-- C3 witness: the amended theorem evaluated on a single-header
mapping proposing the new label Y over an empty store. -/
theorem c3_materialization_witness :
    (materializeFields [("h", ⟨"NEW:Y", none⟩)] ⟨[], [], 0⟩ []).1.contactFields.length = 1
    ∧ (alistLookup (materializeFields [("h", ⟨"NEW:Y", none⟩)] ⟨[], [], 0⟩ []).2
        "NEW:Y").isSome = true := by
  have h := c3_materialization [("h", ⟨"NEW:Y", none⟩)] ⟨[], [], 0⟩
  refine ⟨by simpa using h.1, h.2.1 "h" ⟨"NEW:Y", none⟩ (by simp) (by decide)⟩

/-! ## Claim C4 -/

/-- C4 counterexample: a row whose deduplication store read throws does
not increment errors, contrary to the claim that an exception during
deduplication is counted there: the exception is caught inside
findExistingContact, the row takes the create branch, and the run ends
with created 1 and errors 0. -/
theorem c4_counterexample :
    processRow
      ⟨[("fn", ⟨"firstName", some 1⟩), ("ln", ⟨"lastName", some 1⟩),
        ("em", ⟨"email", some 1⟩), ("ph", ⟨"phone", some 1⟩)], [], ""⟩ []
      (⟨[], [], 0⟩, ⟨1, 0, 0, 0⟩)
      ⟨[("fn", "E"), ("ln", "F"), ("em", "e@f.g"), ("ph", "7")], false, true⟩
      = (⟨[⟨"id0", [("firstName", "E"), ("lastName", "F"), ("email", "e@f.g"),
            ("phone", "7")]⟩], [], 1⟩, ⟨1, 1, 0, 0⟩) := by
  decide

/-- C4 (amended): processing a list of rows decomposes around any
single row, so one row's outcome never aborts the loop over the
remaining rows or the production of the final statistics; a row whose
exception reaches the per-row handler (a throwing store write) leaves
the store untouched and increments exactly the errors counter — but an
exception during the deduplication lookup never reaches that handler:
it is caught inside findExistingContact and the row is counted under
created instead. -/
theorem c4_row_failure_isolated (mapping : MappingResult)
    (usersByEmail : List (String × String)) (acc : Store × ImportStats)
    (rows1 : List RowEnv) (re : RowEnv) (rows2 : List RowEnv) :
    ((rows1 ++ re :: rows2).foldl (processRow mapping usersByEmail) acc
      = rows2.foldl (processRow mapping usersByEmail)
          (processRow mapping usersByEmail
            (rows1.foldl (processRow mapping usersByEmail) acc) re))
    ∧ (re.writeOk = false →
        processRow mapping usersByEmail acc re
          = (acc.1, { acc.2 with errors := acc.2.errors + 1 })) := by
  constructor
  · rw [List.foldl_append, List.foldl_cons]
  · intro hw
    obtain ⟨st, stats⟩ := acc
    cases hv : validateCore (mapRowToContact re.row mapping usersByEmail) <;>
      cases hf : findExistingContact re.readOk st
          (mapRowToContact re.row mapping usersByEmail) <;>
        simp [processRow, hv, hf, hw]

/-- C4 witness: the theorem applied to a concrete failing row between
two concrete rows. -/
theorem c4_row_failure_isolated_witness :
    (([] ++ (⟨[("a", "b")], true, false⟩ : RowEnv) :: []).foldl
        (processRow ⟨[], [], ""⟩ []) ((⟨[], [], 0⟩, ⟨3, 0, 0, 0⟩) : Store × ImportStats)
      = ([] : List RowEnv).foldl (processRow ⟨[], [], ""⟩ [])
          (processRow ⟨[], [], ""⟩ []
            (([] : List RowEnv).foldl (processRow ⟨[], [], ""⟩ [])
              ((⟨[], [], 0⟩, ⟨3, 0, 0, 0⟩) : Store × ImportStats))
            ⟨[("a", "b")], true, false⟩))
    ∧ processRow ⟨[], [], ""⟩ [] ((⟨[], [], 0⟩, ⟨3, 0, 0, 0⟩) : Store × ImportStats)
        ⟨[("a", "b")], true, false⟩
      = ((⟨[], [], 0⟩, ⟨3, 0, 0, 1⟩) : Store × ImportStats) := by
  have h := c4_row_failure_isolated ⟨[], [], ""⟩ []
    ((⟨[], [], 0⟩, ⟨3, 0, 0, 0⟩) : Store × ImportStats)
    [] (⟨[("a", "b")], true, false⟩ : RowEnv) []
  exact ⟨h.1, h.2 rfl⟩

/-! ## Claim C5 -/

/-- C5: when the deduplication store read throws (readOk false), the
catch inside findExistingContact returns null, so a validated row is
treated as having no existing match: it is written as a new record and
counted under created, with errors untouched — and this holds for every
store, including one that already contains a matching record, so the
failure can produce a duplicate. -/
theorem c5_dedup_read_failure_creates (mapping : MappingResult)
    (usersByEmail : List (String × String)) (st : Store) (stats : ImportStats)
    (re : RowEnv) (hread : re.readOk = false) (hwrite : re.writeOk = true)
    (hvalid : validateCore (mapRowToContact re.row mapping usersByEmail) = true) :
    findExistingContact re.readOk st (mapRowToContact re.row mapping usersByEmail) = none
    ∧ processRow mapping usersByEmail (st, stats) re
        = (addContact st (mapRowToContact re.row mapping usersByEmail),
            { stats with created := stats.created + 1 }) := by
  have hfind : findExistingContact re.readOk st
      (mapRowToContact re.row mapping usersByEmail) = none := by
    rw [hread]
    simp [findExistingContact]
  exact ⟨hfind, by simp [processRow, hvalid, hfind, hwrite]⟩

/-- C5 witness: the theorem applied to a row whose email already exists
in the store; the run nevertheless creates a second record with that
email and counts it under created. -/
theorem c5_dedup_read_failure_creates_witness :
    findExistingContact false
      ⟨[⟨"id0", [("email", "a@b.c")]⟩], [], 1⟩
      (mapRowToContact [("fn", "A"), ("ln", "B"), ("em", "a@b.c"), ("ph", "1")]
        ⟨[("fn", ⟨"firstName", some 1⟩), ("ln", ⟨"lastName", some 1⟩),
          ("em", ⟨"email", some 1⟩), ("ph", ⟨"phone", some 1⟩)], [], ""⟩ []) = none
    ∧ processRow
        ⟨[("fn", ⟨"firstName", some 1⟩), ("ln", ⟨"lastName", some 1⟩),
          ("em", ⟨"email", some 1⟩), ("ph", ⟨"phone", some 1⟩)], [], ""⟩ []
        (⟨[⟨"id0", [("email", "a@b.c")]⟩], [], 1⟩, ⟨1, 0, 0, 0⟩)
        ⟨[("fn", "A"), ("ln", "B"), ("em", "a@b.c"), ("ph", "1")], false, true⟩
      = (⟨[⟨"id0", [("email", "a@b.c")]⟩,
            ⟨"id1", [("firstName", "A"), ("lastName", "B"), ("email", "a@b.c"),
              ("phone", "1")]⟩], [], 2⟩, ⟨1, 1, 0, 0⟩) := by
  have h := c5_dedup_read_failure_creates
    ⟨[("fn", ⟨"firstName", some 1⟩), ("ln", ⟨"lastName", some 1⟩),
      ("em", ⟨"email", some 1⟩), ("ph", ⟨"phone", some 1⟩)], [], ""⟩ []
    ⟨[⟨"id0", [("email", "a@b.c")]⟩], [], 1⟩ ⟨1, 0, 0, 0⟩
    ⟨[("fn", "A"), ("ln", "B"), ("em", "a@b.c"), ("ph", "1")], false, true⟩
    rfl rfl (by decide)
  exact ⟨h.1, h.2.trans (by decide)⟩

/-! ## Claim C6 -/

/-- C6: a validated row whose email has an exact match in the store is
merged rather than created: the lookup returns the first email match
(phone is not consulted), exactly the merged counter increments, and
the matched record's document is updated by shallow overwrite — every
key of the mapped attribute map takes the mapped value, every other key
of the existing record keeps its stored value. -/
theorem c6_email_match_merges (mapping : MappingResult)
    (usersByEmail : List (String × String)) (st : Store) (stats : ImportStats)
    (row : List (String × String)) (c : Contact)
    (hvalid : validateCore (mapRowToContact row mapping usersByEmail) = true)
    (hmatch : firstMatch st.contacts "email"
        ((alistLookup (mapRowToContact row mapping usersByEmail) "email").getD "")
      = some c) :
    findExistingContact true st (mapRowToContact row mapping usersByEmail) = some c
    ∧ processRow mapping usersByEmail (st, stats) ⟨row, true, true⟩
        = (updateDocStore st c.id (mapRowToContact row mapping usersByEmail),
            { stats with merged := stats.merged + 1 })
    ∧ (updateDocStore st c.id (mapRowToContact row mapping usersByEmail)).contacts
        = st.contacts.map (fun d =>
            if d.id == c.id then
              { d with attrs := mergeAttrs d.attrs (mapRowToContact row mapping usersByEmail) }
            else d)
    ∧ ∀ k, alistLookup (mergeAttrs c.attrs (mapRowToContact row mapping usersByEmail)) k
        = ((alistLookup (mapRowToContact row mapping usersByEmail) k).or
            (alistLookup c.attrs k)) := by
  have hep : fieldPresent (mapRowToContact row mapping usersByEmail) "email" = true := by
    have hv := hvalid
    unfold validateCore at hv
    simp only [Bool.and_eq_true] at hv
    exact hv.1.2
  obtain ⟨v, hv, hvne⟩ : ∃ v,
      alistLookup (mapRowToContact row mapping usersByEmail) "email" = some v
      ∧ (v == "") = false := by
    unfold fieldPresent at hep
    cases hl : alistLookup (mapRowToContact row mapping usersByEmail) "email" with
    | none => rw [hl] at hep; simp at hep
    | some v =>
        rw [hl] at hep
        refine ⟨v, rfl, ?_⟩
        cases hve : (v == "") with
        | false => rfl
        | true =>
            exfalso
            have hveq : v = "" := by simpa using hve
            subst hveq
            have htr : strTrim "" = "" := by decide
            simp [htr] at hep
  rw [hv] at hmatch
  simp only [Option.getD_some] at hmatch
  have hfind : findExistingContact true st (mapRowToContact row mapping usersByEmail)
      = some c := by
    simp [findExistingContact, hv, hvne, hmatch]
  refine ⟨hfind, ?_, rfl, ?_⟩
  · simp [processRow, hvalid, hfind]
  · intro k
    exact alistLookup_mergeAttrs c.attrs (mapRowToContact row mapping usersByEmail) k
      (nodup_keys_mapRowToContact row mapping usersByEmail)

/-- C6 witness: the theorem applied to a store holding one contact with
a stored notes attribute; the merge keeps notes, overwrites firstName,
and increments exactly merged. -/
theorem c6_email_match_merges_witness :
    findExistingContact true
      ⟨[⟨"id0", [("email", "a@b.c"), ("notes", "old"), ("firstName", "Z")]⟩], [], 1⟩
      (mapRowToContact [("fn", "A"), ("ln", "B"), ("em", "a@b.c"), ("ph", "1")]
        ⟨[("fn", ⟨"firstName", some 1⟩), ("ln", ⟨"lastName", some 1⟩),
          ("em", ⟨"email", some 1⟩), ("ph", ⟨"phone", some 1⟩)], [], ""⟩ [])
      = some ⟨"id0", [("email", "a@b.c"), ("notes", "old"), ("firstName", "Z")]⟩
    ∧ alistLookup (mergeAttrs [("email", "a@b.c"), ("notes", "old"), ("firstName", "Z")]
        (mapRowToContact [("fn", "A"), ("ln", "B"), ("em", "a@b.c"), ("ph", "1")]
          ⟨[("fn", ⟨"firstName", some 1⟩), ("ln", ⟨"lastName", some 1⟩),
            ("em", ⟨"email", some 1⟩), ("ph", ⟨"phone", some 1⟩)], [], ""⟩ []))
        "notes" = some "old"
    ∧ alistLookup (mergeAttrs [("email", "a@b.c"), ("notes", "old"), ("firstName", "Z")]
        (mapRowToContact [("fn", "A"), ("ln", "B"), ("em", "a@b.c"), ("ph", "1")]
          ⟨[("fn", ⟨"firstName", some 1⟩), ("ln", ⟨"lastName", some 1⟩),
            ("em", ⟨"email", some 1⟩), ("ph", ⟨"phone", some 1⟩)], [], ""⟩ []))
        "firstName" = some "A" := by
  have h := c6_email_match_merges
    ⟨[("fn", ⟨"firstName", some 1⟩), ("ln", ⟨"lastName", some 1⟩),
      ("em", ⟨"email", some 1⟩), ("ph", ⟨"phone", some 1⟩)], [], ""⟩ []
    ⟨[⟨"id0", [("email", "a@b.c"), ("notes", "old"), ("firstName", "Z")]⟩], [], 1⟩
    ⟨1, 0, 0, 0⟩
    [("fn", "A"), ("ln", "B"), ("em", "a@b.c"), ("ph", "1")]
    ⟨"id0", [("email", "a@b.c"), ("notes", "old"), ("firstName", "Z")]⟩
    (by decide) (by decide)
  exact ⟨h.1, (h.2.2.2 "notes").trans (by decide),
    (h.2.2.2 "firstName").trans (by decide)⟩

/-! ## Claim C7 -/

/-- C7 counterexample: in the ContactsPage variant of mapRowToContact a
cell holding the placeholder dash does populate the mapped attribute. -/
theorem c7_counterexample :
    alistLookup (mapRowToContactContactsPage [("h", "-")]
      ⟨[("h", ⟨"firstName", some 1⟩)], [], ""⟩ []) "firstName" = some "-" := by
  decide

/-- C7 (amended): in the ImportContactsPopup row transformation, a cell
whose value trims to the empty string or to one of the placeholder
sentinels never populates any attribute: the transformed record equals
the one computed without that cell. In the ContactsPage variant only
the empty string is skipped. -/
theorem c7_placeholder_never_populates (mapping : MappingResult)
    (usersByEmail : List (String × String)) (pre suf : List (String × String))
    (header value : String)
    (hph : strTrim value = "" ∨ strTrim value = "-" ∨ strTrim value = "null"
      ∨ strTrim value = "undefined") :
    mapRowToContact (pre ++ (header, value) :: suf) mapping usersByEmail
      = mapRowToContact (pre ++ suf) mapping usersByEmail := by
  have hc : (strTrim value == "" || strTrim value == "-" || strTrim value == "null"
      || strTrim value == "undefined") = true := by
    rcases hph with h | h | h | h <;> rw [h] <;> decide
  have hstep : ∀ contact,
      mapRowStep mapping usersByEmail contact (header, value) = contact := by
    intro contact
    unfold mapRowStep
    cases alistLookup mapping.mapping header with
    | none => rfl
    | some fm => simp [hc]
  unfold mapRowToContact
  rw [List.foldl_append, List.foldl_append, List.foldl_cons, hstep]

/-- C7 witness: the theorem applied to a row whose middle cell trims to
the dash placeholder. -/
theorem c7_placeholder_never_populates_witness :
    mapRowToContact ([("a", "x")] ++ ("h", " - ") :: [("b", "y")])
        ⟨[("a", ⟨"firstName", some 1⟩), ("h", ⟨"lastName", some 1⟩),
          ("b", ⟨"email", some 1⟩)], [], ""⟩ []
      = mapRowToContact ([("a", "x")] ++ [("b", "y")])
        ⟨[("a", ⟨"firstName", some 1⟩), ("h", ⟨"lastName", some 1⟩),
          ("b", ⟨"email", some 1⟩)], [], ""⟩ [] := by
  exact c7_placeholder_never_populates _ _ [("a", "x")] [("b", "y")] "h" " - "
    (Or.inr (Or.inl (by decide)))

/-! ## Claim C8 -/

/-- C8: after every reconciler edit — handleUpdateMapping and
handleCreateNewField of ImportContactsPopup (whenever they actually
edit, i.e. the target is not the create-new sentinel and the new field
name is not blank) and handleUpdateMapping of ContactsPage — the
recomputed unmappedHeaders contains a header exactly when its entry in
the resulting mapping has target unmapped. -/
theorem c8_unmapped_headers_invariant (r : MappingResult) (header t label h : String) :
    (t ≠ "__CREATE_NEW__" →
      (h ∈ (handleUpdateMapping r header t).unmappedHeaders ↔
        ∃ fm, alistLookup (handleUpdateMapping r header t).mapping h = some fm
          ∧ fm.mappedTo = "unmapped"))
    ∧ (strTrim label ≠ "" →
      (h ∈ (handleCreateNewField r header label).unmappedHeaders ↔
        ∃ fm, alistLookup (handleCreateNewField r header label).mapping h = some fm
          ∧ fm.mappedTo = "unmapped"))
    ∧ (h ∈ (handleUpdateMappingContactsPage r header t).unmappedHeaders ↔
        ∃ fm, alistLookup (handleUpdateMappingContactsPage r header t).mapping h = some fm
          ∧ fm.mappedTo = "unmapped") := by
  refine ⟨?_, ?_, ?_⟩
  · intro ht
    have hbeq : (t == "__CREATE_NEW__") = false := by simpa using ht
    simp only [handleUpdateMapping, hbeq, Bool.false_eq_true, if_false]
    exact unmapped_invariant_applyMappingEdit r header t h
  · intro hl
    have hbeq : (strTrim label == "") = false := by simpa using hl
    simp only [handleCreateNewField, hbeq, Bool.false_eq_true, if_false]
    exact unmapped_invariant_applyMappingEdit r header ("NEW:" ++ strTrim label) h
  · exact unmapped_invariant_applyMappingEdit r header t h

/-- C8 witness: the invariant evaluated after a concrete update turning
one of two headers to unmapped and a concrete inline field creation. -/
theorem c8_unmapped_headers_invariant_witness :
    ("unmapped" ≠ "__CREATE_NEW__"
      ∧ ("A" ∈ (handleUpdateMapping ⟨[("A", ⟨"email", some 1⟩), ("B", ⟨"unmapped", some 1⟩)],
            ["B"], ""⟩ "A" "unmapped").unmappedHeaders ↔
          ∃ fm, alistLookup (handleUpdateMapping ⟨[("A", ⟨"email", some 1⟩),
              ("B", ⟨"unmapped", some 1⟩)], ["B"], ""⟩ "A" "unmapped").mapping "A" = some fm
            ∧ fm.mappedTo = "unmapped"))
    ∧ (strTrim " Budget " ≠ ""
      ∧ ("A" ∈ (handleCreateNewField ⟨[("A", ⟨"email", some 1⟩), ("B", ⟨"unmapped", some 1⟩)],
            ["B"], ""⟩ "A" " Budget ").unmappedHeaders ↔
          ∃ fm, alistLookup (handleCreateNewField ⟨[("A", ⟨"email", some 1⟩),
              ("B", ⟨"unmapped", some 1⟩)], ["B"], ""⟩ "A" " Budget ").mapping "A" = some fm
            ∧ fm.mappedTo = "unmapped")) := by
  have h := c8_unmapped_headers_invariant
    ⟨[("A", ⟨"email", some 1⟩), ("B", ⟨"unmapped", some 1⟩)], ["B"], ""⟩
    "A" "unmapped" " Budget " "A"
  exact ⟨⟨by decide, h.1 (by decide)⟩, ⟨by decide, h.2.1 (by decide)⟩⟩

/-! ## Claim C9 -/

/-- C9 counterexample: updating the mapping at a header that is not in
the entry set does not fail; it silently inserts a fresh entry for the
unknown header with the requested target and no confidence. -/
theorem c9_counterexample :
    handleUpdateMapping ⟨[("A", ⟨"email", some 1⟩)], [], ""⟩ "B" "phone"
      = ⟨[("A", ⟨"email", some 1⟩), ("B", ⟨"phone", none⟩)], [], ""⟩ := by
  decide

/-- C9 (amended): setTarget performs no unknown-header check: for any
header absent from the entry set (and any non-sentinel target), the
edit appends a new entry for that header, carrying the requested target
and an absent confidence, instead of failing with UnknownHeader. -/
theorem c9_unknown_header_silently_inserted (r : MappingResult) (header t : String)
    (ht : t ≠ "__CREATE_NEW__") (hun : alistLookup r.mapping header = none) :
    (handleUpdateMapping r header t).mapping
      = r.mapping ++ [(header, ⟨t, none⟩)] := by
  have hbeq : (t == "__CREATE_NEW__") = false := by simpa using ht
  simp only [handleUpdateMapping, hbeq, Bool.false_eq_true, if_false, applyMappingEdit]
  rw [hun]
  exact alistSet_eq_append_of_lookup_none r.mapping header _ hun

/-- C9 witness: the amended theorem at a concrete one-entry mapping and
an unknown header. -/
theorem c9_unknown_header_silently_inserted_witness :
    (handleUpdateMapping ⟨[("A", ⟨"email", some 1⟩)], [], ""⟩ "C" "phone").mapping
      = [("A", ⟨"email", some 1⟩)] ++ [("C", ⟨"phone", none⟩)] := by
  exact c9_unknown_header_silently_inserted ⟨[("A", ⟨"email", some 1⟩)], [], ""⟩ "C" "phone"
    (by decide) (by decide)

/-! ## Claim C10 -/

/-- C10: the chunked run of handleImport (fixed-size chunks of 100)
produces exactly the same final store and the same statistics as the
same rows processed sequentially as one single chunk: chunk boundaries
have no semantic effect. -/
theorem c10_chunking_has_no_semantic_effect (mapping : MappingResult) (st : Store)
    (usersByEmail : List (String × String)) (rows : List RowEnv) :
    handleImport mapping st usersByEmail rows
      = handleImportSeq mapping st usersByEmail rows := by
  simp only [handleImport, handleImportSeq, runChunks_eq_foldl]

end ContactsImporter
